import Mathlib

/-!
Shallow embedding of the sprite-sheet composition core of the
`comfyui-helper` repository.

Two source variants are modelled:

* `SpriteComposer` — `src/comfyui_helper/core/sprite_composer.py`
  (strict config validation, subdirectory frame-discovery convention
  `input_root/{animation}/{index}.png`).
* `SpriteComposerFlat` — `src/src/comfyui_helper/sprite_composer.py`
  (flat frame-discovery convention `input_root/{animation}_{index}.png`).

Filesystem contents, image decoding and output writes are passed in as
explicit oracles (`FileSystem`, `loadImage`, `saveErr`, `configErr`),
so every run of the Python code corresponds to one choice of oracle.
Python raised exceptions are modelled by `Except PyError` / explicit
failure branches of the result record, mirroring the `try`/`except`
structure of the source.
-/

/-! ### Python `int(...)` string parsing (ASCII fragment)

`int(s)` strips surrounding whitespace, accepts one optional sign and
then a nonempty digit sequence in which single underscores may appear
between digits (`int("001") = 1`, `int("1_0") = 10`, `int("a1")`
raises `ValueError`). -/

def isAsciiDigit (c : Char) : Bool := '0' ≤ c && c ≤ '9'

def digitVal (c : Char) : Nat := c.toNat - 48

/-- Digits with single underscores allowed only between digits; the
first character handed in must already have been checked to be a digit. -/
def parseDigitsUnd : List Char → Nat → Option Nat
  | [], acc => some acc
  | c :: rest, acc =>
    if isAsciiDigit c then parseDigitsUnd rest (acc * 10 + digitVal c)
    else if c = '_' then
      match rest with
      | [] => none
      | r :: rs =>
        if isAsciiDigit r then parseDigitsUnd rs (acc * 10 + digitVal r)
        else none
    else none

def dropWhitespace (l : List Char) : List Char := l.dropWhile Char.isWhitespace

def parseUnsigned : List Char → Option Nat
  | [] => none
  | c :: rest =>
    if isAsciiDigit c then parseDigitsUnd rest (digitVal c) else none

/-- Model of Python `int(s)` on ASCII strings, returning `none` where
Python raises `ValueError`. -/
def pythonInt (s : String) : Option Int :=
  let l := (dropWhitespace s.data).reverse
  let l := (dropWhitespace l).reverse
  match l with
  | '+' :: rest => (parseUnsigned rest).map fun n => (n : Int)
  | '-' :: rest => (parseUnsigned rest).map fun n => -(n : Int)
  | rest => (parseUnsigned rest).map fun n => (n : Int)

/-! ### Python `str.split('_')` (computable model) -/

/-- `split('_')` on a character list: always returns at least one part,
with empty parts around consecutive or terminal separators, exactly as
Python's `str.split` with an explicit separator. -/
def splitOnUnd : List Char → List (List Char)
  | [] => [[]]
  | c :: t =>
    match splitOnUnd t with
    | [] => [[]]
    | h :: r => if c = '_' then [] :: h :: r else (c :: h) :: r

/-- `s.split('_')` as a list of strings. -/
def pySplitUnd (s : String) : List String :=
  (splitOnUnd s.data).map fun cs => String.mk cs

/-- Is `needle` a prefix of `hay`? -/
def isPrefixList : List Char → List Char → Bool
  | [], _ => true
  | _ :: _, [] => false
  | a :: as, b :: bs => (a = b) && isPrefixList as bs

/-- Does `hay` contain `needle` as a contiguous substring? -/
def containsChars : List Char → List Char → Bool
  | hay, needle =>
    isPrefixList needle hay ||
      match hay with
      | [] => false
      | _ :: t => containsChars t needle

/-! ### Python exceptions -/

/-- The exception kinds raised by the composer sources. -/
inductive PyError where
  | valueError (msg : String)
  | fileNotFoundError (msg : String)
  | jsonDecodeError (msg : String)
  | genericError (msg : String)
deriving DecidableEq, Repr

def PyError.msg : PyError → String
  | .valueError m => m
  | .fileNotFoundError m => m
  | .jsonDecodeError m => m
  | .genericError m => m

/-! ### Configuration model -/

/-- One entry of the `animations` mapping: `{"row": ..., "frames": ...}`. -/
structure AnimConfig where
  row : Int
  frames : Int
deriving DecidableEq, Repr

/-- A raw configuration mapping (a JSON object).  Each recognised key is
`none` when absent; `otherKeys` records any further keys, so that
`isFalsy` can model Python's `not config` test on the dict. -/
structure RawConfig where
  frame_width : Option Int := none
  frame_height : Option Int := none
  cols : Option Int := none
  rows : Option Int := none
  animations : Option (List (String × AnimConfig)) := none
  background_color : Option (List Int) := none
  otherKeys : List String := []
deriving DecidableEq, Repr

/-- Python `not config`: a dict is falsy iff it has no keys at all. -/
def RawConfig.isFalsy (c : RawConfig) : Bool :=
  c.frame_width.isNone && c.frame_height.isNone && c.cols.isNone &&
  c.rows.isNone && c.animations.isNone && c.background_color.isNone &&
  c.otherKeys.isEmpty

/-- `[field for field in required_fields if field not in config]` with
`required_fields = ['frame_width', 'frame_height', 'cols', 'rows', 'animations']`. -/
def requiredMissing (c : RawConfig) : List String :=
  (if c.frame_width.isNone then ["frame_width"] else []) ++
  (if c.frame_height.isNone then ["frame_height"] else []) ++
  (if c.cols.isNone then ["cols"] else []) ++
  (if c.rows.isNone then ["rows"] else []) ++
  (if c.animations.isNone then ["animations"] else [])

/-- The validated composer state (fields bound in `__init__`). -/
structure Composer where
  frame_width : Int
  frame_height : Int
  cols : Int
  rows : Int
  animations : List (String × AnimConfig)
  background_color : List Int
deriving Repr

namespace SpriteComposer

/-- `SpriteSheetComposer.__init__` of the core variant: rejects a falsy
config, then batch-reports missing required fields, then binds the
fields (`background_color` defaulting to `[0, 0, 0, 0]`). -/
def init (config : RawConfig) : Except PyError Composer :=
  if config.isFalsy then
    .error (.valueError "必须提供配置字典")
  else
    let missing := requiredMissing config
    if missing.isEmpty then
      .ok { frame_width := config.frame_width.getD 0
            frame_height := config.frame_height.getD 0
            cols := config.cols.getD 0
            rows := config.rows.getD 0
            animations := config.animations.getD []
            background_color := config.background_color.getD [0, 0, 0, 0] }
    else
      .error (.valueError ("配置缺少必要字段: " ++ String.intercalate ", " missing))

/-- `SpriteSheetComposer.load_config_file`.  `file` is the filesystem
oracle for `config_path`: `none` means the path does not exist,
`some (.error d)` means the bytes fail JSON parsing, `some (.ok cfg)`
is the parsed object.  The `ValueError` raised by the field check
inside the `try` block is caught by the trailing `except Exception`
and re-raised as a plain `Exception` wrapping its message. -/
def load_config_file (config_path : String)
    (file : Option (Except String RawConfig)) : Except PyError RawConfig :=
  match file with
  | none => .error (.fileNotFoundError ("配置文件不存在: " ++ config_path))
  | some (.error _) =>
      .error (.jsonDecodeError ("配置文件格式错误: " ++ config_path))
  | some (.ok config) =>
      let missing := requiredMissing config
      if missing.isEmpty then .ok config
      else
        .error (.genericError
          ("加载配置文件失败: 配置文件缺少必要字段: " ++
            String.intercalate ", " missing))

end SpriteComposer

/-! ### PIL image model

An image is a size together with a pixel function; a pixel is the list
of its channel values (RGBA in this code base).  `paste` with the pasted
image as its own mask blends each band by the source alpha exactly as
PIL's `DIV255`/`BLEND` macros do; `resizeNearest` is PIL's
`Resampling.NEAREST` centre-point sampling.  The claims below depend
only on the geometry of these operations, not on the numeric blend. -/

abbrev Pixel := List Int

structure PILImage where
  w : Nat
  h : Nat
  pix : Nat → Nat → Pixel

/-- `Image.new('RGBA', (sw, sh), background)`; callers guarantee
`0 ≤ sw`, `0 ≤ sh` (PIL raises on negative sizes, handled at the call
site). -/
def newCanvas (sw sh : Int) (bg : Pixel) : PILImage :=
  { w := sw.toNat, h := sh.toNat, pix := fun _ _ => bg }

/-- PIL's `DIV255` rounding. -/
def div255 (x : Int) : Int := (x + 128 + (x + 128) / 256) / 256

/-- Per-band mask blend, the mask value being the source alpha
(channel 3). -/
def blendPixel (dst src : Pixel) : Pixel :=
  let a := src.getD 3 0
  (List.range (max dst.length src.length)).map fun i =>
    div255 (dst.getD i 0 * (255 - a) + src.getD i 0 * a)

/-- `canvas.paste(img, (x, y), img)`: the pasted box is clipped to the
canvas; inside it every band is mask-blended by the source alpha. -/
def paste (canvas img : PILImage) (x y : Int) : PILImage :=
  { canvas with
    pix := fun u v =>
      if x ≤ (u : Int) && (u : Int) < x + img.w &&
         y ≤ (v : Int) && (v : Int) < y + img.h &&
         u < canvas.w && v < canvas.h then
        blendPixel (canvas.pix u v) (img.pix ((u : Int) - x).toNat ((v : Int) - y).toNat)
      else canvas.pix u v }

/-- Centre-point nearest-neighbour source index for destination index
`i` when scaling `srcW` to `dstW`. -/
def nearestIdx (i dstW srcW : Nat) : Nat :=
  min (((2 * i + 1) * srcW) / (2 * dstW)) (srcW - 1)

/-- `img.resize((w, h), Image.Resampling.NEAREST)`. -/
def resizeNearest (img : PILImage) (w h : Int) : PILImage :=
  { w := w.toNat, h := h.toNat,
    pix := fun i j => img.pix (nearestIdx i w.toNat img.w) (nearestIdx j h.toNat img.h) }

/-! ### Filesystem model for the subdirectory convention -/

/-- An entry of `input_path.iterdir()`: its name, whether it is a
directory, and — when it is — the stems of its `*.png` files in glob
order. -/
structure DirEntry where
  name : String
  isDir : Bool
  pngStems : List String
deriving DecidableEq, Repr

/-- The filesystem oracle: directory path ↦ its entries, `none` when
the path does not exist. -/
abbrev FileSystem := String → Option (List DirEntry)

/-- Python dict assignment `m[k] = v` on an insertion-ordered dict. -/
def dictInsert {α : Type} (m : List (String × α)) (k : String) (v : α) :
    List (String × α) :=
  match m with
  | [] => [(k, v)]
  | (k', v') :: rest =>
      if k' = k then (k, v) :: rest else (k', v') :: dictInsert rest k v

/-- Stable ascending sort on the parsed frame number, modelling Python's
`frame_files.sort(key=lambda x: x[0])` (stable insertion sort). -/
def sortPairs (l : List (Int × String)) : List (Int × String) :=
  l.insertionSort fun a b => a.1 ≤ b.1

namespace SpriteComposer

/-- The `(frame_num, str(file_path))` pairs collected from one
subdirectory: stems that fail `int(...)` are skipped with a warning. -/
def collectPairs (input_dir : String) (e : DirEntry) : List (Int × String) :=
  e.pngStems.filterMap fun stem =>
    (pythonInt stem).map fun n =>
      (n, input_dir ++ "/" ++ e.name ++ "/" ++ stem ++ ".png")

/-- The body of the `for subdir in input_path.iterdir()` loop: a
subdirectory becomes an entry of the result dict only when at least one
of its stems parses, and its frame paths are sorted by ascending parsed
number. -/
def entryStep (input_dir : String) (acc : List (String × List String))
    (e : DirEntry) : List (String × List String) :=
  if e.isDir then
    let ff := collectPairs input_dir e
    if ff.isEmpty then acc
    else dictInsert acc e.name ((sortPairs ff).map (·.2))
  else acc

/-- `SpriteSheetComposer.find_frames` of the core variant. -/
def find_frames (fs : FileSystem) (input_dir : String) :
    Except PyError (List (String × List String)) :=
  match fs input_dir with
  | none => .error (.fileNotFoundError ("输入目录不存在: " ++ input_dir))
  | some entries => .ok (entries.foldl (entryStep input_dir) [])

end SpriteComposer

/-! ### The composition run (`create_sprite_sheet`) -/

/-- One `sprite_sheet.paste(...)` call performed during a run: the
animation it belongs to, the index of the placed frame within that
animation's ordered frame list, the frame's file path and the pixel
coordinates of its cell. -/
structure Placement where
  anim : String
  idx : Nat
  path : String
  x : Int
  y : Int
deriving DecidableEq, Repr

/-- The mutable state threaded through the placement loop of
`create_sprite_sheet`: the canvas, the two counters and the trace of
paste calls made so far. -/
structure RunState where
  canvas : PILImage
  processed : Int
  missing : Int
  placements : List Placement

/-- The result dict initialised at the top of `create_sprite_sheet`
and updated along the way. -/
structure PyResult where
  success : Bool
  message : String
  output_path : String
  config_path : String
  processed_frames : Int
  missing_frames : Int
  sheet_width : Int
  sheet_height : Int
deriving DecidableEq, Repr

/-- What one call of `create_sprite_sheet` leaves behind: the returned
dict, the image written to `output_path` (when the save happened) and
the trace of paste calls. -/
structure RunOutput where
  result : PyResult
  savedImage : Option PILImage
  placements : List Placement

/-- `Path(p).with_suffix('.json')` restricted to the use in this code:
replace everything from the last dot of the final path segment. -/
def withSuffixJson (p : String) : String :=
  let segs := p.splitOn "/"
  let last := segs.getLastD ""
  let stem :=
    if (last.splitOn ".").length ≤ 1 then last
    else String.intercalate "." (last.splitOn ".").dropLast
  String.intercalate "/" (segs.dropLast ++ [stem ++ ".json"])

namespace SpriteComposer

/-- The inner `for frame_idx in range(actual_frames)` loop of
`create_sprite_sheet` for one animation.  `loadImage` is the oracle for
`Image.open(path).convert('RGBA')`: `none` where that raises, making
the frame count as missing. -/
def placeFrames (c : Composer) (loadImage : String → Option PILImage)
    (animName : String) (row : Int) (paths : List String) (actual : Nat)
    (st : RunState) : RunState :=
  (List.range actual).foldl (fun st i =>
    let path := paths.getD i ""
    match loadImage path with
    | some img =>
        let resized := resizeNearest img c.frame_width c.frame_height
        let x := (i : Int) * c.frame_width
        let y := row * c.frame_height
        { st with
          canvas := paste st.canvas resized x y
          processed := st.processed + 1
          placements := st.placements ++ [⟨animName, i, path, x, y⟩] }
    | none => { st with missing := st.missing + 1 }) st

/-- The body of the `for anim_name, anim_config in self.animations.items()`
loop of `create_sprite_sheet`, for one animation. -/
def animStep (c : Composer) (loadImage : String → Option PILImage)
    (found : List (String × List String)) (st : RunState)
    (anim : String × AnimConfig) : RunState :=
  let row := anim.2.row
  let expected := anim.2.frames
  match found.lookup anim.1 with
  | some paths =>
      let actual : Int := min (paths.length : Int) expected
      let st' := placeFrames c loadImage anim.1 row paths actual.toNat st
      if actual < expected then
        { st' with missing := st'.missing + (expected - actual) }
      else st'
  | none => { st with missing := st.missing + expected }

/-- The `for anim_name, anim_config in self.animations.items()` loop of
`create_sprite_sheet`. -/
def runAnimations (c : Composer) (loadImage : String → Option PILImage)
    (found : List (String × List String)) (st : RunState) : RunState :=
  c.animations.foldl (animStep c loadImage found) st

/-- `SpriteSheetComposer.create_sprite_sheet` of the core variant.
`saveErr` / `configErr` are the oracles for `sprite_sheet.save` and
`generate_sprite_config`: `some msg` means that call raises with text
`msg`.  Any exception lands in the trailing `except`, which fills in
`message` and returns the result dict as accumulated so far. -/
def create_sprite_sheet (c : Composer) (fs : FileSystem)
    (input_dir output_path : String) (loadImage : String → Option PILImage)
    (saveErr configErr : Option String) : RunOutput :=
  let res0 : PyResult :=
    { success := false, message := "", output_path := "", config_path := ""
      processed_frames := 0, missing_frames := 0, sheet_width := 0, sheet_height := 0 }
  match find_frames fs input_dir with
  | .error e =>
      { result := { res0 with message := "创建精灵表失败: " ++ e.msg }
        savedImage := none, placements := [] }
  | .ok found =>
      let sheet_width := c.frame_width * c.cols
      let sheet_height := c.frame_height * c.rows
      if sheet_width < 0 || sheet_height < 0 then
        { result := { res0 with
            message := "创建精灵表失败: Width and height must be >= 0" }
          savedImage := none, placements := [] }
      else
        let canvas0 := newCanvas sheet_width sheet_height c.background_color
        let st := runAnimations c loadImage found
          { canvas := canvas0, processed := 0, missing := 0, placements := [] }
        match saveErr with
        | some err =>
            { result := { res0 with message := "创建精灵表失败: " ++ err }
              savedImage := none, placements := st.placements }
        | none =>
            let res1 := { res0 with output_path := output_path }
            match configErr with
            | some err =>
                { result := { res1 with message := "创建精灵表失败: " ++ err }
                  savedImage := some st.canvas, placements := st.placements }
            | none =>
                { result := { res1 with
                    config_path := withSuffixJson output_path
                    success := true
                    message := "精灵表创建成功！已处理 " ++ toString st.processed ++
                      " 帧，缺失 " ++ toString st.missing ++ " 帧"
                    processed_frames := st.processed
                    missing_frames := st.missing
                    sheet_width := sheet_width
                    sheet_height := sheet_height }
                  savedImage := some st.canvas, placements := st.placements }

end SpriteComposer

/-! ### The flat-convention variant (`src/src/comfyui_helper/sprite_composer.py`) -/

namespace SpriteComposerFlat

/-- Filesystem oracle for the flat variant: input root ↦ the stems of
its `*.png` files in glob order (`none` when the root does not exist). -/
abbrev FlatFS := String → Option (List String)

/-- The per-file body of the flat `find_frames` loop: split the stem on
underscores; only stems with at least three parts are considered, the
animation name being all parts but the last joined back and the frame
number the last part parsed as int. -/
def flatStep (input_dir : String) (acc : List (String × List (Int × String)))
    (stem : String) : List (String × List (Int × String)) :=
  let parts := pySplitUnd stem
  if 3 ≤ parts.length then
    let anim_name := String.intercalate "_" parts.dropLast
    match pythonInt (parts.getLastD "") with
    | some n =>
        let entry := (acc.lookup anim_name).getD []
        dictInsert acc anim_name
          (entry ++ [(n, input_dir ++ "/" ++ stem ++ ".png")])
    | none => acc
  else acc

/-- The whole grouping loop of the flat `find_frames`. -/
def collectFlat (input_dir : String) (stems : List String) :
    List (String × List (Int × String)) :=
  stems.foldl (flatStep input_dir) []

/-- `SpriteSheetComposer.find_frames` of the flat variant: group the
root's `*.png` stems as above, then sort each group's frames by
ascending parsed number. -/
def find_frames (fs : FlatFS) (input_dir : String) :
    Except PyError (List (String × List String)) :=
  match fs input_dir with
  | none => .error (.fileNotFoundError ("输入目录不存在: " ++ input_dir))
  | some stems =>
      .ok <| (collectFlat input_dir stems).map fun g =>
        (g.1, (sortPairs g.2).map (·.2))

end SpriteComposerFlat

/-! ### Per-animation decomposition of the placement loop

These definitions restate, animation by animation, exactly what the
loop of `create_sprite_sheet` contributes to the counters, the paste
trace and the canvas; the `runAnimations_spec` theorem below proves the
loop equal to their combination. -/

namespace SpriteComposer

/-- Number of frames of the inner loop whose `Image.open` succeeds. -/
def animOk (li : String → Option PILImage) (paths : List String)
    (actual : Nat) : Nat :=
  (List.range actual).countP fun i => (li (paths.getD i "")).isSome

/-- Number of frames of the inner loop whose `Image.open` raises. -/
def animFail (li : String → Option PILImage) (paths : List String)
    (actual : Nat) : Nat :=
  (List.range actual).countP fun i => !(li (paths.getD i "")).isSome

/-- The paste calls the inner loop makes for one animation. -/
def animPlaceList (c : Composer) (li : String → Option PILImage)
    (animName : String) (row : Int) (paths : List String) (actual : Nat) :
    List Placement :=
  (List.range actual).filterMap fun i =>
    match li (paths.getD i "") with
    | some _ => some ⟨animName, i, paths.getD i "",
        (i : Int) * c.frame_width, row * c.frame_height⟩
    | none => none

/-- The canvas after the inner loop for one animation. -/
def placeCanvas (c : Composer) (li : String → Option PILImage) (row : Int)
    (paths : List String) (actual : Nat) (cv : PILImage) : PILImage :=
  (List.range actual).foldl (fun cv i =>
    match li (paths.getD i "") with
    | some img =>
        paste cv (resizeNearest img c.frame_width c.frame_height)
          ((i : Int) * c.frame_width) (row * c.frame_height)
    | none => cv) cv

/-- `min(len(frame_paths), expected_frames)` for one animation of the
outer loop (`0` when the animation was not discovered at all). -/
def animActual (found : List (String × List String))
    (anim : String × AnimConfig) : Int :=
  match found.lookup anim.1 with
  | some paths => min (paths.length : Int) anim.2.frames
  | none => 0

/-- What one animation adds to `processed_frames`. -/
def animProcessed (li : String → Option PILImage)
    (found : List (String × List String)) (anim : String × AnimConfig) : Int :=
  match found.lookup anim.1 with
  | some paths =>
      (animOk li paths (min (paths.length : Int) anim.2.frames).toNat : Int)
  | none => 0

/-- What one animation adds to `missing_frames`: decode failures among
the placed range, plus the shortfall `expected - actual`, or the whole
`expected` when the animation was not discovered. -/
def animMissing (li : String → Option PILImage)
    (found : List (String × List String)) (anim : String × AnimConfig) : Int :=
  match found.lookup anim.1 with
  | some paths =>
      let actual : Int := min (paths.length : Int) anim.2.frames
      (animFail li paths actual.toNat : Int) +
        (if actual < anim.2.frames then anim.2.frames - actual else 0)
  | none => anim.2.frames

/-- The paste calls one animation of the outer loop makes. -/
def animPlaces (c : Composer) (li : String → Option PILImage)
    (found : List (String × List String)) (anim : String × AnimConfig) :
    List Placement :=
  match found.lookup anim.1 with
  | some paths =>
      animPlaceList c li anim.1 anim.2.row paths
        (min (paths.length : Int) anim.2.frames).toNat
  | none => []

/-- The canvas transformation of one animation of the outer loop. -/
def animCanvas (c : Composer) (li : String → Option PILImage)
    (found : List (String × List String)) (anim : String × AnimConfig)
    (cv : PILImage) : PILImage :=
  match found.lookup anim.1 with
  | some paths =>
      placeCanvas c li anim.2.row paths
        (min (paths.length : Int) anim.2.frames).toNat cv
  | none => cv

/-- Total `processed_frames` over a list of animations. -/
def sumProcessed (li : String → Option PILImage)
    (found : List (String × List String)) (l : List (String × AnimConfig)) : Int :=
  (l.map (animProcessed li found)).sum

/-- Total `missing_frames` over a list of animations. -/
def sumMissing (li : String → Option PILImage)
    (found : List (String × List String)) (l : List (String × AnimConfig)) : Int :=
  (l.map (animMissing li found)).sum

/-- All paste calls over a list of animations, in loop order. -/
def placesAll (c : Composer) (li : String → Option PILImage)
    (found : List (String × List String)) (l : List (String × AnimConfig)) :
    List Placement :=
  (l.map (animPlaces c li found)).flatten

/-- The canvas after a list of animations. -/
def canvasAll (c : Composer) (li : String → Option PILImage)
    (found : List (String × List String)) (l : List (String × AnimConfig))
    (cv : PILImage) : PILImage :=
  l.foldl (fun cv a => animCanvas c li found a cv) cv

end SpriteComposer

/-- Extract the mapping of a successful discovery (`[]` on error);
used to state counterexamples concretely. -/
def foundOrEmpty : Except PyError (List (String × List String)) →
    List (String × List String)
  | .ok m => m
  | .error _ => []

/-- `field` occurs somewhere in `msg` (the error message names it). -/
def namesField (msg field : String) : Bool :=
  containsChars msg.data field.data

/-! ### Concrete fixtures used to instantiate the theorems -/

/-- A 32×32 opaque red frame. -/
def redImg : PILImage := ⟨32, 32, fun _ _ => [255, 0, 0, 255]⟩

/-- Placeholder image for `Option.getD`. -/
def blankImg : PILImage := ⟨0, 0, fun _ _ => []⟩

/-- A configuration mapping in which `walk` and `run` both claim row 0. -/
def collideCfg : RawConfig :=
  { frame_width := some 32, frame_height := some 32, cols := some 2,
    rows := some 2,
    animations := some [("walk", ⟨0, 2⟩), ("run", ⟨0, 2⟩)] }

/-- The composer state `__init__` builds from `collideCfg`. -/
def collideComposer : Composer :=
  { frame_width := 32, frame_height := 32, cols := 2, rows := 2,
    animations := [("walk", ⟨0, 2⟩), ("run", ⟨0, 2⟩)],
    background_color := [0, 0, 0, 0] }

/-- A composer whose config declares `walk` (row 0) and `run` (row 1). -/
def twoAnimComposer : Composer :=
  { frame_width := 32, frame_height := 32, cols := 2, rows := 2,
    animations := [("walk", ⟨0, 2⟩), ("run", ⟨1, 3⟩)],
    background_color := [0, 0, 0, 0] }

/-- Input root holding only `walk/001.png` and `walk/002.png`. -/
def walkOnlyFS : FileSystem := fun d =>
  if d = "in" then some [⟨"walk", true, ["001", "002"]⟩] else none

/-- Input root holding only `walk/001.png`. -/
def walkOneFS : FileSystem := fun d =>
  if d = "in" then some [⟨"walk", true, ["001"]⟩] else none

/-- Input root holding `walk/001.png .. walk/003.png`. -/
def walkThreeFS : FileSystem := fun d =>
  if d = "in" then some [⟨"walk", true, ["001", "002", "003"]⟩] else none

/-- An input root that exists but is empty. -/
def emptyFS : FileSystem := fun d => if d = "in" then some [] else none

/-- Input root with a malformed stem next to two parsable ones. -/
def malformedFS : FileSystem := fun d =>
  if d = "in" then some [⟨"walk", true, ["001", "frame_a", "002"]⟩] else none

/-- A one-animation composer used for the small concrete runs. -/
def walkComposer : Composer :=
  { frame_width := 32, frame_height := 32, cols := 2, rows := 1,
    animations := [("walk", ⟨0, 2⟩)],
    background_color := [0, 0, 0, 0] }

/-- Configuration mapping missing exactly `frame_height`. -/
def noHeightCfg : RawConfig :=
  { frame_width := some 32, cols := some 2, rows := some 1,
    animations := some [("walk", ⟨0, 2⟩)] }

/-- Flat input root holding only `walk_001.png`. -/
def flatWalkFS : SpriteComposerFlat.FlatFS := fun d =>
  if d = "in" then some ["walk_001"] else none

/-- Flat input root holding only `idle_down_001.png`. -/
def flatIdleFS : SpriteComposerFlat.FlatFS := fun d =>
  if d = "in" then some ["idle_down_001"] else none

/-- Flat input root holding `idle_down_002.png`, `idle_down_001.png`
(out of index order) and the one-underscore `walk_001.png`. -/
def flatMixedFS : SpriteComposerFlat.FlatFS := fun d =>
  if d = "in" then some ["idle_down_002", "idle_down_001", "walk_001"]
  else none

/-! ## Decomposition lemmas for the placement loop -/

namespace SpriteComposer

theorem animOk_succ (li : String → Option PILImage) (paths : List String) (n : Nat) :
    animOk li paths (n + 1) =
      animOk li paths n + (if (li (paths.getD n "")).isSome then 1 else 0) := by
  simp [animOk, List.range_succ, List.countP_append, List.countP_cons]

theorem animFail_succ (li : String → Option PILImage) (paths : List String) (n : Nat) :
    animFail li paths (n + 1) =
      animFail li paths n + (if (li (paths.getD n "")).isSome then 0 else 1) := by
  simp only [animFail, List.range_succ, List.countP_append, List.countP_cons,
    List.countP_nil]
  cases h : (li (paths.getD n "")).isSome <;> simp [h]

theorem animOk_add_animFail (li : String → Option PILImage) (paths : List String)
    (n : Nat) : animOk li paths n + animFail li paths n = n := by
  induction n with
  | zero => rfl
  | succ n ih =>
      rw [animOk_succ, animFail_succ]
      by_cases h : (li (paths.getD n "")).isSome = true
      · rw [if_pos h, if_pos h]; omega
      · rw [if_neg h, if_neg h]; omega

theorem animPlaceList_succ (c : Composer) (li : String → Option PILImage)
    (name : String) (row : Int) (paths : List String) (n : Nat) :
    animPlaceList c li name row paths (n + 1) =
      animPlaceList c li name row paths n ++
        (match li (paths.getD n "") with
          | some _ => [(⟨name, n, paths.getD n "",
              (n : Int) * c.frame_width, row * c.frame_height⟩ : Placement)]
          | none => []) := by
  simp only [animPlaceList, List.range_succ, List.filterMap_append,
    List.filterMap_cons, List.filterMap_nil]
  cases h : li (paths.getD n "") <;> simp [h]

theorem placeCanvas_succ (c : Composer) (li : String → Option PILImage)
    (row : Int) (paths : List String) (n : Nat) (cv : PILImage) :
    placeCanvas c li row paths (n + 1) cv =
      (match li (paths.getD n "") with
        | some img =>
            paste (placeCanvas c li row paths n cv)
              (resizeNearest img c.frame_width c.frame_height)
              ((n : Int) * c.frame_width) (row * c.frame_height)
        | none => placeCanvas c li row paths n cv) := by
  simp only [placeCanvas, List.range_succ, List.foldl_append, List.foldl_cons,
    List.foldl_nil]

theorem placeFrames_succ (c : Composer) (li : String → Option PILImage)
    (name : String) (row : Int) (paths : List String) (n : Nat) (st : RunState) :
    placeFrames c li name row paths (n + 1) st =
      (match li (paths.getD n "") with
        | some img =>
            let st' := placeFrames c li name row paths n st
            { st' with
              canvas := paste st'.canvas
                (resizeNearest img c.frame_width c.frame_height)
                ((n : Int) * c.frame_width) (row * c.frame_height)
              processed := st'.processed + 1
              placements := st'.placements ++
                [⟨name, n, paths.getD n "",
                  (n : Int) * c.frame_width, row * c.frame_height⟩] }
        | none =>
            let st' := placeFrames c li name row paths n st
            { st' with missing := st'.missing + 1 }) := by
  simp only [placeFrames, List.range_succ, List.foldl_append, List.foldl_cons,
    List.foldl_nil]

/-- The inner loop in closed form: it pastes `animPlaceList`, adds
`animOk` to `processed` and `animFail` to `missing`. -/
theorem placeFrames_spec (c : Composer) (li : String → Option PILImage)
    (name : String) (row : Int) (paths : List String) (actual : Nat)
    (st : RunState) :
    placeFrames c li name row paths actual st =
      { canvas := placeCanvas c li row paths actual st.canvas
        processed := st.processed + animOk li paths actual
        missing := st.missing + animFail li paths actual
        placements := st.placements ++ animPlaceList c li name row paths actual } := by
  induction actual with
  | zero =>
      cases st
      simp [placeFrames, placeCanvas, animOk, animFail, animPlaceList]
  | succ n ih =>
      rw [placeFrames_succ, placeCanvas_succ, animOk_succ, animFail_succ,
        animPlaceList_succ, ih]
      cases h : li (paths.getD n "") <;>
        simp [h, add_assoc, List.append_assoc]

/-- One animation of the outer loop in closed form. -/
theorem animStep_spec (c : Composer) (li : String → Option PILImage)
    (found : List (String × List String)) (st : RunState)
    (anim : String × AnimConfig) :
    animStep c li found st anim =
      { canvas := animCanvas c li found anim st.canvas
        processed := st.processed + animProcessed li found anim
        missing := st.missing + animMissing li found anim
        placements := st.placements ++ animPlaces c li found anim } := by
  cases st
  unfold animStep animCanvas animProcessed animMissing animPlaces
  cases h : found.lookup anim.1 with
  | none => simp
  | some paths =>
      simp only [placeFrames_spec]
      by_cases hlt : min ((paths.length : Int)) anim.2.frames < anim.2.frames
      · rw [if_pos hlt, if_pos hlt]; simp [add_assoc]
      · rw [if_neg hlt, if_neg hlt]; simp

/-- The whole animation loop in closed form over any animation list. -/
theorem foldAnims_spec (c : Composer) (li : String → Option PILImage)
    (found : List (String × List String)) :
    ∀ (l : List (String × AnimConfig)) (st : RunState),
      l.foldl (animStep c li found) st =
        { canvas := canvasAll c li found l st.canvas
          processed := st.processed + sumProcessed li found l
          missing := st.missing + sumMissing li found l
          placements := st.placements ++ placesAll c li found l } := by
  intro l
  induction l with
  | nil =>
      intro st; cases st
      simp [canvasAll, sumProcessed, sumMissing, placesAll]
  | cons a t ih =>
      intro st
      rw [List.foldl_cons, animStep_spec, ih]
      simp [canvasAll, sumProcessed, sumMissing, placesAll, add_assoc,
        List.append_assoc]

/-- `runAnimations` in closed form. -/
theorem runAnimations_spec (c : Composer) (li : String → Option PILImage)
    (found : List (String × List String)) (st : RunState) :
    runAnimations c li found st =
      { canvas := canvasAll c li found c.animations st.canvas
        processed := st.processed + sumProcessed li found c.animations
        missing := st.missing + sumMissing li found c.animations
        placements := st.placements ++ placesAll c li found c.animations } :=
  foldAnims_spec c li found c.animations st

end SpriteComposer

/-! ## Canvas geometry lemmas -/

theorem paste_w (cv img : PILImage) (x y : Int) : (paste cv img x y).w = cv.w := rfl

theorem paste_h (cv img : PILImage) (x y : Int) : (paste cv img x y).h = cv.h := rfl

/-- A paste whose vertical extent misses row `v` leaves pixel `(u, v)`
unchanged. -/
theorem paste_pix_outside (cv img : PILImage) (x y : Int) (u v : Nat)
    (h : ¬ (y ≤ (v : Int) ∧ (v : Int) < y + img.h)) :
    (paste cv img x y).pix u v = cv.pix u v := by
  unfold paste
  simp only
  split
  next hc =>
    exfalso
    simp only [Bool.and_eq_true, decide_eq_true_eq] at hc
    exact h ⟨hc.1.1.1.2, hc.1.1.2⟩
  next => rfl

namespace SpriteComposer

theorem placeCanvas_w (c : Composer) (li : String → Option PILImage)
    (row : Int) (paths : List String) (actual : Nat) (cv : PILImage) :
    (placeCanvas c li row paths actual cv).w = cv.w := by
  induction actual with
  | zero => rfl
  | succ n ih =>
      rw [placeCanvas_succ]
      cases h : li (paths.getD n "") <;> simp [h, paste_w, ih]

theorem placeCanvas_h (c : Composer) (li : String → Option PILImage)
    (row : Int) (paths : List String) (actual : Nat) (cv : PILImage) :
    (placeCanvas c li row paths actual cv).h = cv.h := by
  induction actual with
  | zero => rfl
  | succ n ih =>
      rw [placeCanvas_succ]
      cases h : li (paths.getD n "") <;> simp [h, paste_h, ih]

theorem animCanvas_w (c : Composer) (li : String → Option PILImage)
    (found : List (String × List String)) (anim : String × AnimConfig)
    (cv : PILImage) : (animCanvas c li found anim cv).w = cv.w := by
  unfold animCanvas
  cases h : found.lookup anim.1 <;> simp [h, placeCanvas_w]

theorem animCanvas_h (c : Composer) (li : String → Option PILImage)
    (found : List (String × List String)) (anim : String × AnimConfig)
    (cv : PILImage) : (animCanvas c li found anim cv).h = cv.h := by
  unfold animCanvas
  cases h : found.lookup anim.1 <;> simp [h, placeCanvas_h]

theorem canvasAll_w (c : Composer) (li : String → Option PILImage)
    (found : List (String × List String)) :
    ∀ (l : List (String × AnimConfig)) (cv : PILImage),
      (canvasAll c li found l cv).w = cv.w := by
  intro l
  induction l with
  | nil => intro cv; rfl
  | cons a t ih =>
      intro cv
      show (canvasAll c li found t (animCanvas c li found a cv)).w = cv.w
      rw [ih, animCanvas_w]

theorem canvasAll_h (c : Composer) (li : String → Option PILImage)
    (found : List (String × List String)) :
    ∀ (l : List (String × AnimConfig)) (cv : PILImage),
      (canvasAll c li found l cv).h = cv.h := by
  intro l
  induction l with
  | nil => intro cv; rfl
  | cons a t ih =>
      intro cv
      show (canvasAll c li found t (animCanvas c li found a cv)).h = cv.h
      rw [ih, animCanvas_h]

/-- Rows are disjoint vertical bands: a band of height `fh` starting at
`r * fh` misses every `v` inside the band of a different row `r₀`. -/
theorem row_bands_disjoint (fh r r₀ v : Int) (hfh : 0 < fh) (hne : r ≠ r₀)
    (hv : r₀ * fh ≤ v ∧ v < r₀ * fh + fh) :
    ¬ (r * fh ≤ v ∧ v < r * fh + fh) := by
  rintro ⟨h1, h2⟩
  rcases lt_or_gt_of_ne hne with h | h
  · have hr : r + 1 ≤ r₀ := by omega
    have := mul_le_mul_of_nonneg_right hr (le_of_lt hfh)
    nlinarith [hv.1, h2]
  · have hr : r₀ + 1 ≤ r := by omega
    have := mul_le_mul_of_nonneg_right hr (le_of_lt hfh)
    nlinarith [hv.2, h1]

/-- The inner loop of an animation on row `row` leaves every pixel of a
different row's band unchanged. -/
theorem placeCanvas_pix_outside (c : Composer) (li : String → Option PILImage)
    (row : Int) (paths : List String) (actual : Nat) (cv : PILImage)
    (u v : Nat)
    (h : ¬ (row * c.frame_height ≤ (v : Int) ∧
            (v : Int) < row * c.frame_height + (c.frame_height.toNat : Int))) :
    (placeCanvas c li row paths actual cv).pix u v = cv.pix u v := by
  induction actual with
  | zero => rfl
  | succ n ih =>
      rw [placeCanvas_succ]
      cases hl : li (paths.getD n "") with
      | none => simpa using ih
      | some img =>
          simp only
          rw [paste_pix_outside]
          · exact ih
          · simpa [resizeNearest] using h

theorem animCanvas_pix_outside (c : Composer) (li : String → Option PILImage)
    (found : List (String × List String)) (anim : String × AnimConfig)
    (cv : PILImage) (row₀ : Int) (u v : Nat)
    (hfh : 0 < c.frame_height)
    (hv : row₀ * c.frame_height ≤ (v : Int) ∧
          (v : Int) < row₀ * c.frame_height + c.frame_height)
    (hrow : anim.2.row ≠ row₀ ∨ found.lookup anim.1 = none) :
    (animCanvas c li found anim cv).pix u v = cv.pix u v := by
  unfold animCanvas
  cases h : found.lookup anim.1 with
  | none => rfl
  | some paths =>
      rcases hrow with hrow | hnone
      · simp only
        rw [placeCanvas_pix_outside]
        rw [Int.toNat_of_nonneg (le_of_lt hfh)]
        exact row_bands_disjoint c.frame_height anim.2.row row₀ (v : Int)
          hfh hrow hv
      · rw [h] at hnone; cases hnone

theorem canvasAll_pix_outside (c : Composer) (li : String → Option PILImage)
    (found : List (String × List String)) (row₀ : Int) (u v : Nat)
    (hfh : 0 < c.frame_height)
    (hv : row₀ * c.frame_height ≤ (v : Int) ∧
          (v : Int) < row₀ * c.frame_height + c.frame_height) :
    ∀ (l : List (String × AnimConfig)) (cv : PILImage),
      (∀ a ∈ l, a.2.row ≠ row₀ ∨ found.lookup a.1 = none) →
      (canvasAll c li found l cv).pix u v = cv.pix u v := by
  intro l
  induction l with
  | nil => intro cv _; rfl
  | cons a t ih =>
      intro cv hl
      show (canvasAll c li found t (animCanvas c li found a cv)).pix u v = _
      rw [ih (animCanvas c li found a cv) fun b hb => hl b (List.mem_cons_of_mem a hb)]
      exact animCanvas_pix_outside c li found a cv row₀ u v hfh hv
        (hl a (List.mem_cons_self a t))

end SpriteComposer

/-! ## Dictionary and discovery lemmas -/

theorem lookup_some_mem {α : Type} (m : List (String × α)) (k : String) (v : α)
    (h : m.lookup k = some v) : (k, v) ∈ m := by
  induction m with
  | nil => cases h
  | cons p t ih =>
      rw [List.lookup] at h
      by_cases hk : k = p.1
      · subst hk
        simp only [beq_self_eq_true] at h
        cases h
        exact List.mem_cons_self _ _
      · have : (k == p.1) = false := beq_eq_false_iff_ne.mpr hk
        rw [this] at h
        exact List.mem_cons_of_mem _ (ih h)

theorem dictInsert_mem {α : Type} (m : List (String × α)) (k : String) (v : α)
    (p : String × α) (h : p ∈ dictInsert m k v) : p = (k, v) ∨ p ∈ m := by
  induction m with
  | nil => simpa [dictInsert] using h
  | cons q t ih =>
      rw [dictInsert] at h
      by_cases hk : q.1 = k
      · rw [if_pos hk] at h
        rcases List.mem_cons.mp h with h | h
        · exact .inl h
        · exact .inr (List.mem_cons_of_mem _ h)
      · rw [if_neg hk] at h
        rcases List.mem_cons.mp h with h | h
        · exact .inr (h ▸ List.mem_cons_self _ _)
        · rcases ih h with h | h
          · exact .inl h
          · exact .inr (List.mem_cons_of_mem _ h)

theorem mem_sortPairs (l : List (Int × String)) (a : Int × String) :
    a ∈ sortPairs l ↔ a ∈ l :=
  (List.perm_insertionSort _ l).mem_iff

theorem length_sortPairs (l : List (Int × String)) :
    (sortPairs l).length = l.length :=
  (List.perm_insertionSort _ l).length_eq

theorem sortPairs_sorted (l : List (Int × String)) :
    List.Sorted (fun a b : Int × String => a.1 ≤ b.1) (sortPairs l) := by
  haveI : IsTotal (Int × String) (fun a b => a.1 ≤ b.1) :=
    ⟨fun a b => le_total a.1 b.1⟩
  haveI : IsTrans (Int × String) (fun a b => a.1 ≤ b.1) :=
    ⟨fun _ _ _ h1 h2 => le_trans h1 h2⟩
  exact List.sorted_insertionSort _ l

namespace SpriteComposer

/-- Every entry of the dict built by the discovery loop satisfies `P`,
provided `P` holds of whatever the loop inserts. -/
theorem foldEntries_prop (input_dir : String)
    (P : String × List String → Prop) :
    ∀ entries : List DirEntry,
      (∀ e ∈ entries, e.isDir = true →
        (collectPairs input_dir e).isEmpty = false →
        P (e.name, (sortPairs (collectPairs input_dir e)).map (·.2))) →
      ∀ acc : List (String × List String),
        (∀ p ∈ acc, P p) →
        ∀ p ∈ entries.foldl (entryStep input_dir) acc, P p := by
  intro entries
  induction entries with
  | nil => intro _ acc hacc p hp; exact hacc p hp
  | cons e t ih =>
      intro hstep acc hacc p hp
      rw [List.foldl_cons] at hp
      refine ih (fun e' he' => hstep e' (List.mem_cons_of_mem e he'))
        (entryStep input_dir acc e) ?_ p hp
      intro q hq
      unfold entryStep at hq
      by_cases hd : e.isDir = true
      · rw [if_pos hd] at hq
        by_cases he : (collectPairs input_dir e).isEmpty = true
        · rw [if_pos he] at hq; exact hacc q hq
        · rw [if_neg he] at hq
          rcases dictInsert_mem _ _ _ _ hq with h | h
          · exact h ▸ hstep e (List.mem_cons_self e t) hd
              (Bool.not_eq_true _ ▸ he)
          · exact hacc q h
      · rw [if_neg hd] at hq
        exact hacc q hq

end SpriteComposer

/-- What the discovery loop inserts is always a nonempty frame list. -/
theorem discovery_value_nonempty (dir : String) (e : DirEntry)
    (he : (SpriteComposer.collectPairs dir e).isEmpty = false) :
    (sortPairs (SpriteComposer.collectPairs dir e)).map (·.2) ≠ [] := by
  intro hnil
  have hne : SpriteComposer.collectPairs dir e ≠ [] := by
    intro h0; rw [h0] at he; exact absurd he (by decide)
  have hlen := congrArg List.length hnil
  simp only [List.length_map, length_sortPairs, List.length_nil] at hlen
  exact hne (List.length_eq_zero.mp hlen)

/-! ## Claim theorems -/

/-- C1: the spec requires a configuration in which two distinct
animations claim the same row to be rejected with a validation error
naming the collision; the code contains no such check.  At the concrete
colliding configuration (`walk` and `run` both on row 0) both
`__init__` and `load_config_file` succeed, silently accepting the
collision. -/
theorem c1_row_collision_silently_accepted :
    SpriteComposer.init collideCfg = .ok collideComposer ∧
    SpriteComposer.load_config_file "config.json" (some (.ok collideCfg)) =
      .ok collideCfg :=
  ⟨rfl, rfl⟩

/-- C2 counterexample: the config declares `run` (row 1, 3 frames) but
the input root holds only `walk` frames; `find_frames` omits `run` from
the returned mapping instead of mapping it to an empty list. -/
theorem c2_absent_animation_omitted :
    ("run", AnimConfig.mk 1 3) ∈ twoAnimComposer.animations ∧
    foundOrEmpty (SpriteComposer.find_frames walkOnlyFS "in") =
      [("walk", ["in/walk/001.png", "in/walk/002.png"])] ∧
    (foundOrEmpty (SpriteComposer.find_frames walkOnlyFS "in")).lookup "run" =
      none := by
  refine ⟨by decide, rfl, by decide⟩

/-- C2 amended: an animation with no discovered frames is omitted from
the mapping `find_frames` returns — every animation that does appear is
mapped to a nonempty frame list (missing-frame accounting happens
downstream in `create_sprite_sheet` via the absent-key branch). -/
theorem c2_frameset_values_nonempty (fs : FileSystem) (dir : String)
    (m : List (String × List String))
    (h : SpriteComposer.find_frames fs dir = .ok m)
    (name : String) (l : List String) (hl : m.lookup name = some l) :
    l ≠ [] := by
  unfold SpriteComposer.find_frames at h
  cases hfs : fs dir with
  | none => rw [hfs] at h; cases h
  | some entries =>
      rw [hfs] at h
      injection h with hm
      subst hm
      have hmem := lookup_some_mem _ _ _ hl
      exact SpriteComposer.foldEntries_prop dir (fun p => p.2 ≠ [])
        entries (fun e _ _ he => discovery_value_nonempty dir e he)
        [] (by simp) (name, l) hmem

/-- C2 witness: at the concrete root holding `walk/001.png` and
`walk/002.png`, the mapping's `walk` entry is the (nonempty) two-frame
list. -/
theorem c2_frameset_values_nonempty_witness :
    (foundOrEmpty (SpriteComposer.find_frames walkOnlyFS "in")).lookup "walk" =
      some ["in/walk/001.png", "in/walk/002.png"] ∧
    ["in/walk/001.png", "in/walk/002.png"] ≠ ([] : List String) :=
  ⟨by decide,
   c2_frameset_values_nonempty walkOnlyFS "in"
     [("walk", ["in/walk/001.png", "in/walk/002.png"])] rfl
     "walk" ["in/walk/001.png", "in/walk/002.png"] (by decide)⟩

/-- Helper for C6: field-by-field characterisation of the batch-collected
missing-field list. -/
theorem requiredMissing_mem (cfg : RawConfig) :
    ("frame_width" ∈ requiredMissing cfg ↔ cfg.frame_width = none) ∧
    ("frame_height" ∈ requiredMissing cfg ↔ cfg.frame_height = none) ∧
    ("cols" ∈ requiredMissing cfg ↔ cfg.cols = none) ∧
    ("rows" ∈ requiredMissing cfg ↔ cfg.rows = none) ∧
    ("animations" ∈ requiredMissing cfg ↔ cfg.animations = none) := by
  obtain ⟨fw, fh, cl, rw', an, bg, ok⟩ := cfg
  cases fw <;> cases fh <;> cases cl <;> cases rw' <;> cases an <;>
    simp [requiredMissing]

/-- C6 counterexample: the empty configuration mapping is missing every
required field, yet `__init__` raises the generic "must provide a
config dict" error, whose message names no field (in particular not
`frame_height`). -/
theorem c6_empty_config_counterexample :
    requiredMissing {} ≠ [] ∧
    SpriteComposer.init {} = .error (.valueError "必须提供配置字典") ∧
    namesField "必须提供配置字典" "frame_height" = false :=
  ⟨by decide, rfl, by decide⟩

/-- C6 amended: for every NON-empty configuration mapping with missing
required fields, `__init__` (and, wrapped in a generic load failure,
`load_config_file`) fails with a message listing exactly the missing
fields, batch-reported; the empty mapping instead gets a generic error
naming no field. -/
theorem c6_missing_fields_reported (cfg : RawConfig) (p : String)
    (hne : cfg.isFalsy = false) (hmiss : requiredMissing cfg ≠ []) :
    SpriteComposer.init cfg =
      .error (.valueError ("配置缺少必要字段: " ++
        String.intercalate ", " (requiredMissing cfg))) ∧
    SpriteComposer.load_config_file p (some (.ok cfg)) =
      .error (.genericError ("加载配置文件失败: 配置文件缺少必要字段: " ++
        String.intercalate ", " (requiredMissing cfg))) ∧
    ("frame_height" ∈ requiredMissing cfg ↔ cfg.frame_height = none) := by
  have hempty : (requiredMissing cfg).isEmpty = false := by
    cases h : requiredMissing cfg with
    | nil => exact absurd h hmiss
    | cons a t => rfl
  refine ⟨?_, ?_, (requiredMissing_mem cfg).2.1⟩
  · unfold SpriteComposer.init
    rw [hne]
    simp [hempty]
  · unfold SpriteComposer.load_config_file
    simp [hempty]

/-- C6 witness: a config missing exactly `frame_height` fails with a
message naming `frame_height` specifically (Scenario D). -/
theorem c6_missing_fields_witness :
    SpriteComposer.init noHeightCfg =
      .error (.valueError "配置缺少必要字段: frame_height") ∧
    namesField "配置缺少必要字段: frame_height" "frame_height" = true :=
  ⟨(c6_missing_fields_reported noHeightCfg "config.json" rfl (by decide)).1,
   by decide⟩

/-- C7 counterexample: under the flat convention, `walk_001.png` has a
parsable final numeric suffix, but the flat `find_frames` requires at
least two underscores (`len(parts) >= 3`) and returns an empty mapping,
never grouping the file under `walk`. -/
theorem c7_single_underscore_skipped :
    pythonInt "001" = some 1 ∧
    SpriteComposerFlat.find_frames flatWalkFS "in" = .ok [] :=
  ⟨rfl, rfl⟩

/-- Helper: looking up the key that `dictInsert` just wrote. -/
theorem dictInsert_lookup_self {α : Type} (m : List (String × α)) (k : String)
    (v : α) : (dictInsert m k v).lookup k = some v := by
  induction m with
  | nil => simp [dictInsert, List.lookup]
  | cons q t ih =>
      obtain ⟨a, b⟩ := q
      rw [dictInsert]
      by_cases ha : a = k
      · rw [if_pos ha]
        simp [List.lookup]
      · rw [if_neg ha]
        have hba : (k == a) = false := beq_eq_false_iff_ne.mpr (Ne.symm ha)
        simp [List.lookup, hba, ih]

/-- Helper: `dictInsert` at a different key leaves a lookup unchanged. -/
theorem dictInsert_lookup_ne {α : Type} (m : List (String × α)) (k' k : String)
    (v : α) (hne : k' ≠ k) :
    (dictInsert m k' v).lookup k = m.lookup k := by
  induction m with
  | nil =>
      have h1 : (k == k') = false := beq_eq_false_iff_ne.mpr (Ne.symm hne)
      simp [dictInsert, List.lookup, h1]
  | cons q t ih =>
      obtain ⟨a, b⟩ := q
      rw [dictInsert]
      by_cases ha : a = k'
      · subst ha
        rw [if_pos rfl]
        have h1 : (k == a) = false := beq_eq_false_iff_ne.mpr (Ne.symm hne)
        simp [List.lookup, h1]
      · rw [if_neg ha]
        cases hab : (k == a) with
        | true => simp [List.lookup, hab]
        | false => simp [List.lookup, hab, ih]

/-- Helper: a stem with fewer than three underscore-parts is ignored by
the flat grouping step. -/
theorem flatStep_skip (dir : String)
    (acc : List (String × List (Int × String))) (stem : String)
    (hlt : (pySplitUnd stem).length < 3) :
    SpriteComposerFlat.flatStep dir acc stem = acc := by
  simp only [SpriteComposerFlat.flatStep]
  rw [if_neg (not_le.mpr hlt)]

/-- Helper: a stem with at least three parts and a parsable suffix
appends its `(index, path)` pair to its animation's group. -/
theorem flatStep_adds (dir : String)
    (acc : List (String × List (Int × String))) (stem : String) (n : Int)
    (hlen : 3 ≤ (pySplitUnd stem).length)
    (hparse : pythonInt ((pySplitUnd stem).getLastD "") = some n) :
    (SpriteComposerFlat.flatStep dir acc stem).lookup
        (String.intercalate "_" (pySplitUnd stem).dropLast) =
      some (((acc.lookup
          (String.intercalate "_" (pySplitUnd stem).dropLast)).getD []) ++
        [(n, dir ++ "/" ++ stem ++ ".png")]) := by
  simp only [SpriteComposerFlat.flatStep, if_pos hlen, hparse]
  exact dictInsert_lookup_self _ _ _

/-- Helper: one grouping step never removes an existing `(index, path)`
pair from an existing group. -/
theorem flatStep_preserve (dir : String)
    (acc : List (String × List (Int × String))) (stem anim : String)
    (g : List (Int × String)) (x : Int × String)
    (hl : acc.lookup anim = some g) (hx : x ∈ g) :
    ∃ g', (SpriteComposerFlat.flatStep dir acc stem).lookup anim = some g' ∧
      x ∈ g' := by
  by_cases hlen : 3 ≤ (pySplitUnd stem).length
  · simp only [SpriteComposerFlat.flatStep, if_pos hlen]
    cases hparse : pythonInt ((pySplitUnd stem).getLastD "") with
    | none => exact ⟨g, hl, hx⟩
    | some n =>
        by_cases ha : String.intercalate "_" (pySplitUnd stem).dropLast = anim
        · rw [ha, dictInsert_lookup_self]
          refine ⟨_, rfl, ?_⟩
          rw [hl]
          exact List.mem_append.mpr (.inl hx)
        · rw [dictInsert_lookup_ne _ _ _ _ ha]
          exact ⟨g, hl, hx⟩
  · rw [flatStep_skip dir acc stem (by omega)]
    exact ⟨g, hl, hx⟩

/-- Helper: the rest of the grouping loop preserves an existing
`(index, path)` pair. -/
theorem flatFold_preserve (dir : String) :
    ∀ (stems : List String) (acc : List (String × List (Int × String)))
      (anim : String) (g : List (Int × String)) (x : Int × String),
      acc.lookup anim = some g → x ∈ g →
      ∃ g', (stems.foldl (SpriteComposerFlat.flatStep dir) acc).lookup anim =
        some g' ∧ x ∈ g' := by
  intro stems
  induction stems with
  | nil => intro acc anim g x hl hx; exact ⟨g, hl, hx⟩
  | cons s t ih =>
      intro acc anim g x hl hx
      rw [List.foldl_cons]
      rcases flatStep_preserve dir acc s anim g x hl hx with ⟨g', hg', hx'⟩
      exact ih _ anim g' x hg' hx'

/-- Helper: every `(animation, (index, path))` entry the flat grouping
loop produces satisfies `Q`, provided `Q` holds of what each processed
stem inserts. -/
theorem flatFold_sound (dir : String) (Q : String → Int × String → Prop) :
    ∀ stems : List String,
      (∀ stem ∈ stems, ∀ n : Int, 3 ≤ (pySplitUnd stem).length →
        pythonInt ((pySplitUnd stem).getLastD "") = some n →
        Q (String.intercalate "_" (pySplitUnd stem).dropLast)
          (n, dir ++ "/" ++ stem ++ ".png")) →
      ∀ acc : List (String × List (Int × String)),
        (∀ g ∈ acc, ∀ p ∈ g.2, Q g.1 p) →
        ∀ g ∈ stems.foldl (SpriteComposerFlat.flatStep dir) acc,
          ∀ p ∈ g.2, Q g.1 p := by
  intro stems
  induction stems with
  | nil => intro _ acc hacc g hg p hp; exact hacc g hg p hp
  | cons s t ih =>
      intro hstep acc hacc g hg p hp
      rw [List.foldl_cons] at hg
      refine ih (fun s' hs' => hstep s' (List.mem_cons_of_mem s hs'))
        (SpriteComposerFlat.flatStep dir acc s) ?_ g hg p hp
      intro g' hg' p' hp'
      by_cases hlen : 3 ≤ (pySplitUnd s).length
      · simp only [SpriteComposerFlat.flatStep, if_pos hlen] at hg'
        cases hparse : pythonInt ((pySplitUnd s).getLastD "") with
        | none =>
            simp only [hparse] at hg'
            exact hacc g' hg' p' hp'
        | some n =>
            simp only [hparse] at hg'
            rcases dictInsert_mem _ _ _ _ hg' with h | h
            · subst h
              rcases List.mem_append.mp hp' with hpo | hpn
              · cases hl : List.lookup
                    (String.intercalate "_" (pySplitUnd s).dropLast) acc with
                  | none =>
                      rw [hl] at hpo
                      simp at hpo
                  | some g0 =>
                      rw [hl] at hpo
                      simp only [Option.getD_some] at hpo
                      exact hacc _ (lookup_some_mem _ _ _ hl) p' hpo
              · rw [List.mem_singleton] at hpn
                subst hpn
                exact hstep s (List.mem_cons_self s t) n hlen hparse
            · exact hacc g' h p' hp'
      · rw [flatStep_skip dir acc s (by omega)] at hg'
        exact hacc g' hg' p' hp'

/-- C7 amended: under the flat convention a file is grouped only when
its stem splits on `_` into at least three parts.  For every existing
input root: (i) discovery returns the grouped mapping with each group
sorted ascending by parsed index; (ii) every `(index, path)` entry of
every group originates from a stem with at least three parts, filed
under the underscore-join of its non-final parts with its final part
parsed as that index; (iii) every stem with at least three parts and a
parsable final part is filed, with its parsed index, under exactly that
animation; (iv) a stem with fewer than three parts (e.g. one
underscore, like `walk_001`) is skipped entirely: deleting it from the
listing leaves the grouping unchanged. -/
theorem c7_flat_grouping (fsF : SpriteComposerFlat.FlatFS) (dir : String)
    (stems : List String) (hfs : fsF dir = some stems) :
    SpriteComposerFlat.find_frames fsF dir =
      .ok ((SpriteComposerFlat.collectFlat dir stems).map fun g =>
        (g.1, (sortPairs g.2).map (·.2))) ∧
    (∀ g ∈ SpriteComposerFlat.collectFlat dir stems, ∀ p ∈ g.2,
      ∃ stem ∈ stems, 3 ≤ (pySplitUnd stem).length ∧
        g.1 = String.intercalate "_" (pySplitUnd stem).dropLast ∧
        pythonInt ((pySplitUnd stem).getLastD "") = some p.1 ∧
        p.2 = dir ++ "/" ++ stem ++ ".png") ∧
    (∀ (s1 : List String) (stem : String) (s2 : List String) (n : Int),
      stems = s1 ++ stem :: s2 →
      3 ≤ (pySplitUnd stem).length →
      pythonInt ((pySplitUnd stem).getLastD "") = some n →
      ∃ g, (SpriteComposerFlat.collectFlat dir stems).lookup
          (String.intercalate "_" (pySplitUnd stem).dropLast) = some g ∧
        (n, dir ++ "/" ++ stem ++ ".png") ∈ g) ∧
    (∀ (s1 : List String) (stem : String) (s2 : List String),
      stems = s1 ++ stem :: s2 →
      (pySplitUnd stem).length < 3 →
      SpriteComposerFlat.collectFlat dir stems =
        SpriteComposerFlat.collectFlat dir (s1 ++ s2)) := by
  refine ⟨?_, ?_, ?_, ?_⟩
  · unfold SpriteComposerFlat.find_frames
    rw [hfs]
  · refine flatFold_sound dir
      (fun a p => ∃ stem ∈ stems, 3 ≤ (pySplitUnd stem).length ∧
        a = String.intercalate "_" (pySplitUnd stem).dropLast ∧
        pythonInt ((pySplitUnd stem).getLastD "") = some p.1 ∧
        p.2 = dir ++ "/" ++ stem ++ ".png")
      stems ?_ [] (by simp)
    intro stem hstem n hlen hparse
    exact ⟨stem, hstem, hlen, rfl, hparse, rfl⟩
  · intro s1 stem s2 n hsplit hlen hparse
    subst hsplit
    unfold SpriteComposerFlat.collectFlat
    rw [List.foldl_append, List.foldl_cons]
    have hadd := flatStep_adds dir
      (s1.foldl (SpriteComposerFlat.flatStep dir) []) stem n hlen hparse
    exact flatFold_preserve dir s2 _ _ _ _ hadd
      (List.mem_append.mpr (.inr (List.mem_singleton.mpr rfl)))
  · intro s1 stem s2 hsplit hlt
    subst hsplit
    unfold SpriteComposerFlat.collectFlat
    rw [List.foldl_append, List.foldl_cons, flatStep_skip dir _ stem hlt,
      ← List.foldl_append]

/-- C7 witness: at the root listing `idle_down_002.png`,
`idle_down_001.png`, `walk_001.png`, discovery groups the two
`idle_down` frames ascending by index and nothing else; removing the
one-underscore `walk_001.png` from the listing changes nothing, and the
grouped pairs carry the parsed indices 1 and 2. -/
theorem c7_flat_grouping_witness :
    SpriteComposerFlat.find_frames flatMixedFS "in" =
      .ok [("idle_down", ["in/idle_down_001.png", "in/idle_down_002.png"])] ∧
    SpriteComposerFlat.collectFlat "in"
        ["idle_down_002", "idle_down_001", "walk_001"] =
      SpriteComposerFlat.collectFlat "in" ["idle_down_002", "idle_down_001"] ∧
    (SpriteComposerFlat.collectFlat "in"
        ["idle_down_002", "idle_down_001", "walk_001"]).lookup "idle_down" =
      some [((2 : Int), "in/idle_down_002.png"),
            ((1 : Int), "in/idle_down_001.png")] :=
  ⟨(c7_flat_grouping flatMixedFS "in"
      ["idle_down_002", "idle_down_001", "walk_001"] rfl).1.trans rfl,
   (c7_flat_grouping flatMixedFS "in"
      ["idle_down_002", "idle_down_001", "walk_001"] rfl).2.2.2
      ["idle_down_002", "idle_down_001"] "walk_001" [] rfl (by decide),
   rfl⟩

/-- Helper: the animation loop never changes the canvas width. -/
theorem runAnimations_canvas_w (c : Composer) (li : String → Option PILImage)
    (found : List (String × List String)) (st : RunState) :
    (SpriteComposer.runAnimations c li found st).canvas.w = st.canvas.w := by
  rw [SpriteComposer.runAnimations_spec]
  exact SpriteComposer.canvasAll_w c li found c.animations st.canvas

/-- Helper: the animation loop never changes the canvas height. -/
theorem runAnimations_canvas_h (c : Composer) (li : String → Option PILImage)
    (found : List (String × List String)) (st : RunState) :
    (SpriteComposer.runAnimations c li found st).canvas.h = st.canvas.h := by
  rw [SpriteComposer.runAnimations_spec]
  exact SpriteComposer.canvasAll_h c li found c.animations st.canvas

/-- C4: for a valid configuration (positive cell size and grid counts),
whatever image a composition run writes out has width exactly
`cols * frame_width` and height exactly `rows * frame_height`,
independent of the filesystem contents and of which frames decode. -/
theorem c4_grid_sizing (c : Composer) (fs : FileSystem) (dir out : String)
    (li : String → Option PILImage) (configErr : Option String)
    (entries : List DirEntry) (hfs : fs dir = some entries)
    (hfw : 0 < c.frame_width) (hfh : 0 < c.frame_height)
    (hcols : 0 < c.cols) (hrows : 0 < c.rows) (img : PILImage)
    (himg : (SpriteComposer.create_sprite_sheet c fs dir out li none
      configErr).savedImage = some img) :
    (img.w : Int) = c.cols * c.frame_width ∧
    (img.h : Int) = c.rows * c.frame_height := by
  have hff : SpriteComposer.find_frames fs dir =
      .ok (entries.foldl (SpriteComposer.entryStep dir) []) := by
    unfold SpriteComposer.find_frames
    rw [hfs]
  have hneg : (decide (c.frame_width * c.cols < 0) ||
      decide (c.frame_height * c.rows < 0)) = false := by
    simp only [Bool.or_eq_false_iff, decide_eq_false_iff_not, not_lt]
    exact ⟨mul_nonneg hfw.le hcols.le, mul_nonneg hfh.le hrows.le⟩
  have hw : (c.frame_width * c.cols).toNat = img.w ∧
      (c.frame_height * c.rows).toNat = img.h := by
    simp only [SpriteComposer.create_sprite_sheet, hff, hneg,
      Bool.false_eq_true, if_false] at himg
    cases configErr with
    | none =>
        simp only [Option.some.injEq] at himg
        subst himg
        constructor
        · rw [runAnimations_canvas_w]; rfl
        · rw [runAnimations_canvas_h]; rfl
    | some err =>
        simp only [Option.some.injEq] at himg
        subst himg
        constructor
        · rw [runAnimations_canvas_w]; rfl
        · rw [runAnimations_canvas_h]; rfl
  constructor
  · rw [← hw.1, Int.toNat_of_nonneg (mul_nonneg hfw.le hcols.le), mul_comm]
  · rw [← hw.2, Int.toNat_of_nonneg (mul_nonneg hfh.le hrows.le), mul_comm]

/-- C4 witness: the concrete 2×1 grid of 32×32 cells yields a 64×32
canvas even though no frame decodes. -/
theorem c4_grid_sizing_witness :
    ((SpriteComposer.create_sprite_sheet walkComposer emptyFS "in" "out.png"
        (fun _ => none) none none).savedImage.getD blankImg).w = 64 ∧
    ((SpriteComposer.create_sprite_sheet walkComposer emptyFS "in" "out.png"
        (fun _ => none) none none).savedImage.getD blankImg).h = 32 := by
  have h := c4_grid_sizing walkComposer emptyFS "in" "out.png"
    (fun _ => none) none [] rfl (by decide) (by decide) (by decide) (by decide)
    ((SpriteComposer.create_sprite_sheet walkComposer emptyFS "in" "out.png"
        (fun _ => none) none none).savedImage.getD blankImg) rfl
  have e1 : walkComposer.cols * walkComposer.frame_width = (64 : Int) := rfl
  have e2 : walkComposer.rows * walkComposer.frame_height = (32 : Int) := rfl
  refine ⟨?_, ?_⟩
  · have h1 := h.1; rw [e1] at h1; omega
  · have h2 := h.2; rw [e2] at h2; omega

/-- C9 counterexample: when the image save succeeds but the metadata
write then raises, the returned dict has `success = False` — but
`output_path` is already set to the saved image's path, so the claim
that every failure leaves all paths empty is false. -/
theorem c9_output_path_not_cleared :
    (SpriteComposer.create_sprite_sheet walkComposer emptyFS "in" "out.png"
      (fun _ => none) none (some "写入配置失败")).result.success = false ∧
    (SpriteComposer.create_sprite_sheet walkComposer emptyFS "in" "out.png"
      (fun _ => none) none (some "写入配置失败")).result.output_path = "out.png" ∧
    "out.png" ≠ "" := by
  refine ⟨rfl, rfl, by decide⟩

/-- C9 amended: `create_sprite_sheet` always returns a fully populated
result dict (the model is a total function, mirroring the catch-all
`except`); on any failed run the counters, dimensions and `config_path`
are still at their zero/empty initial values and the message wraps the
failure — but `output_path` may already hold the output path when the
failure happened after the image save. -/
theorem c9_failure_result_shape (c : Composer) (fs : FileSystem)
    (dir out : String) (li : String → Option PILImage)
    (saveErr configErr : Option String)
    (h : (SpriteComposer.create_sprite_sheet c fs dir out li saveErr
      configErr).result.success = false) :
    (SpriteComposer.create_sprite_sheet c fs dir out li saveErr
      configErr).result.processed_frames = 0 ∧
    (SpriteComposer.create_sprite_sheet c fs dir out li saveErr
      configErr).result.missing_frames = 0 ∧
    (SpriteComposer.create_sprite_sheet c fs dir out li saveErr
      configErr).result.sheet_width = 0 ∧
    (SpriteComposer.create_sprite_sheet c fs dir out li saveErr
      configErr).result.sheet_height = 0 ∧
    (SpriteComposer.create_sprite_sheet c fs dir out li saveErr
      configErr).result.config_path = "" ∧
    ((SpriteComposer.create_sprite_sheet c fs dir out li saveErr
      configErr).result.output_path = "" ∨
     (SpriteComposer.create_sprite_sheet c fs dir out li saveErr
      configErr).result.output_path = out) ∧
    (∃ s, (SpriteComposer.create_sprite_sheet c fs dir out li saveErr
      configErr).result.message = "创建精灵表失败: " ++ s) := by
  cases hff : SpriteComposer.find_frames fs dir with
  | error e =>
      have hrw : (SpriteComposer.create_sprite_sheet c fs dir out li saveErr
          configErr).result =
          ⟨false, "创建精灵表失败: " ++ e.msg, "", "", 0, 0, 0, 0⟩ := by
        simp only [SpriteComposer.create_sprite_sheet, hff]
      rw [hrw]
      exact ⟨rfl, rfl, rfl, rfl, rfl, .inl rfl, ⟨e.msg, rfl⟩⟩
  | ok found =>
      by_cases hneg : (decide (c.frame_width * c.cols < 0) ||
          decide (c.frame_height * c.rows < 0)) = true
      · have hrw : (SpriteComposer.create_sprite_sheet c fs dir out li saveErr
            configErr).result =
            ⟨false, "创建精灵表失败: Width and height must be >= 0",
              "", "", 0, 0, 0, 0⟩ := by
          simp only [SpriteComposer.create_sprite_sheet, hff, hneg, if_true]
        rw [hrw]
        exact ⟨rfl, rfl, rfl, rfl, rfl, .inl rfl,
          ⟨"Width and height must be >= 0", rfl⟩⟩
      · rw [Bool.not_eq_true] at hneg
        cases saveErr with
        | some err =>
            have hrw : (SpriteComposer.create_sprite_sheet c fs dir out li
                (some err) configErr).result =
                ⟨false, "创建精灵表失败: " ++ err, "", "", 0, 0, 0, 0⟩ := by
              simp only [SpriteComposer.create_sprite_sheet, hff, hneg,
                Bool.false_eq_true, if_false]
            rw [hrw]
            exact ⟨rfl, rfl, rfl, rfl, rfl, .inl rfl, ⟨err, rfl⟩⟩
        | none =>
            cases configErr with
            | some err =>
                have hrw : (SpriteComposer.create_sprite_sheet c fs dir out li
                    none (some err)).result =
                    ⟨false, "创建精灵表失败: " ++ err, out, "", 0, 0, 0, 0⟩ := by
                  simp only [SpriteComposer.create_sprite_sheet, hff, hneg,
                    Bool.false_eq_true, if_false]
                rw [hrw]
                exact ⟨rfl, rfl, rfl, rfl, rfl, .inr rfl, ⟨err, rfl⟩⟩
            | none =>
                exfalso
                simp only [SpriteComposer.create_sprite_sheet, hff, hneg,
                  Bool.false_eq_true, if_false] at h
                cases h

/-- C9 witness: the metadata-write failure run has zeroed counters, an
empty `config_path` and a wrapped failure message. -/
theorem c9_failure_result_shape_witness :
    (SpriteComposer.create_sprite_sheet walkComposer emptyFS "in" "out.png"
      (fun _ => none) none (some "写入配置失败")).result.missing_frames = 0 ∧
    (SpriteComposer.create_sprite_sheet walkComposer emptyFS "in" "out.png"
      (fun _ => none) none (some "写入配置失败")).result.config_path = "" :=
  ⟨(c9_failure_result_shape walkComposer emptyFS "in" "out.png"
      (fun _ => none) none (some "写入配置失败") rfl).2.1,
   (c9_failure_result_shape walkComposer emptyFS "in" "out.png"
      (fun _ => none) none (some "写入配置失败") rfl).2.2.2.2.1⟩

/-- Helper for C10: each animation contributes exactly its configured
frame count, split between processed and missing. -/
theorem animProcessed_add_animMissing (li : String → Option PILImage)
    (found : List (String × List String)) (anim : String × AnimConfig)
    (hpos : 0 ≤ anim.2.frames) :
    SpriteComposer.animProcessed li found anim +
      SpriteComposer.animMissing li found anim = anim.2.frames := by
  unfold SpriteComposer.animProcessed SpriteComposer.animMissing
  cases h : found.lookup anim.1 with
  | none => simp
  | some paths =>
      simp only
      have hof := SpriteComposer.animOk_add_animFail li paths
        (min ((paths.length : Int)) anim.2.frames).toNat
      omega

/-- Helper for C10: conservation over a list of animations. -/
theorem sum_conservation (li : String → Option PILImage)
    (found : List (String × List String)) (l : List (String × AnimConfig))
    (h : ∀ a ∈ l, 0 ≤ a.2.frames) :
    SpriteComposer.sumProcessed li found l +
      SpriteComposer.sumMissing li found l =
      (l.map fun a => a.2.frames).sum := by
  induction l with
  | nil => simp [SpriteComposer.sumProcessed, SpriteComposer.sumMissing]
  | cons a t ih =>
      have ha := animProcessed_add_animMissing li found a
        (h a (List.mem_cons_self a t))
      have ht := ih fun b hb => h b (List.mem_cons_of_mem a hb)
      simp only [SpriteComposer.sumProcessed, SpriteComposer.sumMissing,
        List.map_cons, List.sum_cons] at *
      omega

/-- C10: on every successful composition run with a valid configuration
(non-negative per-animation frame counts), `processed_frames` plus
`missing_frames` equals the sum of all configured frame counts. -/
theorem c10_frame_conservation (c : Composer) (fs : FileSystem)
    (dir out : String) (li : String → Option PILImage)
    (saveErr configErr : Option String)
    (hval : ∀ a ∈ c.animations, 0 ≤ a.2.frames)
    (h : (SpriteComposer.create_sprite_sheet c fs dir out li saveErr
      configErr).result.success = true) :
    (SpriteComposer.create_sprite_sheet c fs dir out li saveErr
      configErr).result.processed_frames +
    (SpriteComposer.create_sprite_sheet c fs dir out li saveErr
      configErr).result.missing_frames =
    (c.animations.map fun a => a.2.frames).sum := by
  cases hff : SpriteComposer.find_frames fs dir with
  | error e =>
      exfalso
      simp only [SpriteComposer.create_sprite_sheet, hff] at h
      cases h
  | ok found =>
      by_cases hneg : (decide (c.frame_width * c.cols < 0) ||
          decide (c.frame_height * c.rows < 0)) = true
      · exfalso
        simp only [SpriteComposer.create_sprite_sheet, hff, hneg, if_true] at h
        cases h
      · rw [Bool.not_eq_true] at hneg
        cases saveErr with
        | some err =>
            exfalso
            simp only [SpriteComposer.create_sprite_sheet, hff, hneg,
              Bool.false_eq_true, if_false] at h
        | none =>
            cases configErr with
            | some err =>
                exfalso
                simp only [SpriteComposer.create_sprite_sheet, hff, hneg,
                  Bool.false_eq_true, if_false] at h
            | none =>
                simp only [SpriteComposer.create_sprite_sheet, hff, hneg,
                  Bool.false_eq_true, if_false,
                  SpriteComposer.runAnimations_spec]
                rw [zero_add, zero_add]
                exact sum_conservation li found c.animations hval

/-- C10 witness: `walk` (2 expected, 1 found and decoded) and `run`
(3 expected, none found) give `1 + 4 = 5 = 2 + 3`. -/
theorem c10_frame_conservation_witness :
    (SpriteComposer.create_sprite_sheet twoAnimComposer walkOneFS "in"
      "out.png" (fun _ => some redImg) none none).result.processed_frames +
    (SpriteComposer.create_sprite_sheet twoAnimComposer walkOneFS "in"
      "out.png" (fun _ => some redImg) none none).result.missing_frames =
    (twoAnimComposer.animations.map fun a => a.2.frames).sum :=
  c10_frame_conservation twoAnimComposer walkOneFS "in" "out.png"
    (fun _ => some redImg) none none (by decide) rfl

/-- Helper: `sumMissing` over the animation dict split around one entry. -/
theorem sumMissing_split (li : String → Option PILImage)
    (found : List (String × List String)) (pre post : List (String × AnimConfig))
    (x : String × AnimConfig) :
    SpriteComposer.sumMissing li found (pre ++ x :: post) =
      SpriteComposer.sumMissing li found pre +
      SpriteComposer.animMissing li found x +
      SpriteComposer.sumMissing li found post := by
  simp [SpriteComposer.sumMissing, List.sum_append]
  omega

/-- C5: an animation configured with `frame_count = k` whose name was
not discovered at all still lets the run succeed, contributes exactly
`k` to `missing_frames`, and (rows being distinct, per the SheetConfig
invariant) leaves every pixel of its row band at `background_color`. -/
theorem c5_missing_accounting (c : Composer) (fs : FileSystem)
    (dir out : String) (li : String → Option PILImage)
    (found : List (String × List String))
    (hfound : SpriteComposer.find_frames fs dir = .ok found)
    (pre post : List (String × AnimConfig)) (name : String) (row k : Int)
    (hanim : c.animations = pre ++ (name, ⟨row, k⟩) :: post)
    (hnone : found.lookup name = none)
    (hrows : ∀ a ∈ pre ++ post, a.2.row ≠ row)
    (hfw : 0 < c.frame_width) (hfh : 0 < c.frame_height)
    (hcols : 0 < c.cols) (hrowsPos : 0 < c.rows) :
    (SpriteComposer.create_sprite_sheet c fs dir out li none
      none).result.success = true ∧
    (SpriteComposer.create_sprite_sheet c fs dir out li none
      none).result.missing_frames =
      SpriteComposer.sumMissing li found pre + k +
      SpriteComposer.sumMissing li found post ∧
    (∀ img, (SpriteComposer.create_sprite_sheet c fs dir out li none
        none).savedImage = some img →
      ∀ x y : Nat, row * c.frame_height ≤ (y : Int) →
        (y : Int) < row * c.frame_height + c.frame_height →
        img.pix x y = c.background_color) := by
  have hneg : (decide (c.frame_width * c.cols < 0) ||
      decide (c.frame_height * c.rows < 0)) = false := by
    simp only [Bool.or_eq_false_iff, decide_eq_false_iff_not, not_lt]
    exact ⟨mul_nonneg hfw.le hcols.le, mul_nonneg hfh.le hrowsPos.le⟩
  refine ⟨?_, ?_, ?_⟩
  · simp only [SpriteComposer.create_sprite_sheet, hfound, hneg,
      Bool.false_eq_true, if_false]
  · simp only [SpriteComposer.create_sprite_sheet, hfound, hneg,
      Bool.false_eq_true, if_false, SpriteComposer.runAnimations_spec]
    rw [zero_add, hanim, sumMissing_split]
    have hx : SpriteComposer.animMissing li found (name, ⟨row, k⟩) = k := by
      unfold SpriteComposer.animMissing
      rw [hnone]
    rw [hx]
  · intro img himg x y hy1 hy2
    have himg2 : img = SpriteComposer.canvasAll c li found c.animations
        (newCanvas (c.frame_width * c.cols) (c.frame_height * c.rows)
          c.background_color) := by
      simp only [SpriteComposer.create_sprite_sheet, hfound, hneg,
        Bool.false_eq_true, if_false, SpriteComposer.runAnimations_spec,
        Option.some.injEq] at himg
      exact himg.symm
    rw [himg2]
    rw [SpriteComposer.canvasAll_pix_outside c li found row x y hfh ⟨hy1, hy2⟩
      c.animations _ ?_]
    · rfl
    · intro a ha
      rw [hanim] at ha
      rcases List.mem_append.mp ha with ha | ha
      · exact .inl (hrows a (List.mem_append.mpr (.inl ha)))
      · rcases List.mem_cons.mp ha with ha | ha
        · subst ha; exact .inr hnone
        · exact .inl (hrows a (List.mem_append.mpr (.inr ha)))

/-- C5 witness: with `run` (row 1, 3 frames) absent from the input
root, the run succeeds, `missing_frames` rises by exactly 3, and the
pixel `(5, 40)` inside row 1's band is still the transparent
background. -/
theorem c5_missing_accounting_witness :
    (SpriteComposer.create_sprite_sheet twoAnimComposer walkOnlyFS "in"
      "out.png" (fun _ => some redImg) none none).result.success = true ∧
    (SpriteComposer.create_sprite_sheet twoAnimComposer walkOnlyFS "in"
      "out.png" (fun _ => some redImg) none none).result.missing_frames = 3 ∧
    ((SpriteComposer.create_sprite_sheet twoAnimComposer walkOnlyFS "in"
      "out.png" (fun _ => some redImg) none none).savedImage.getD
        blankImg).pix 5 40 = [0, 0, 0, 0] := by
  have h := c5_missing_accounting twoAnimComposer walkOnlyFS "in" "out.png"
    (fun _ => some redImg)
    [("walk", ["in/walk/001.png", "in/walk/002.png"])] rfl
    [("walk", AnimConfig.mk 0 2)] [] "run" 1 3 rfl (by decide)
    (by decide) (by decide) (by decide) (by decide) (by decide)
  refine ⟨h.1, ?_, ?_⟩
  · have h2 := h.2.1
    have e : SpriteComposer.sumMissing (fun _ => some redImg)
        [("walk", ["in/walk/001.png", "in/walk/002.png"])]
        [("walk", AnimConfig.mk 0 2)] = 0 := rfl
    rw [e] at h2
    rw [h2]
    rfl
  · have h3 := h.2.2 ((SpriteComposer.create_sprite_sheet twoAnimComposer
      walkOnlyFS "in" "out.png" (fun _ => some redImg) none
      none).savedImage.getD blankImg) rfl 5 40 (by decide) (by decide)
    rw [h3]
    rfl

/-- Helper: every paste an animation makes is tagged with that
animation's name. -/
theorem animPlaceList_anim (c : Composer) (li : String → Option PILImage)
    (name : String) (row : Int) (paths : List String) (actual : Nat)
    (p : Placement) (hp : p ∈ SpriteComposer.animPlaceList c li name row paths actual) :
    p.anim = name := by
  unfold SpriteComposer.animPlaceList at hp
  rcases List.mem_filterMap.mp hp with ⟨i, _, hf⟩
  cases h : li (paths.getD i "") with
  | none => rw [h] at hf; cases hf
  | some img =>
      rw [h] at hf
      cases hf
      rfl

theorem animPlaces_anim (c : Composer) (li : String → Option PILImage)
    (found : List (String × List String)) (a : String × AnimConfig)
    (p : Placement) (hp : p ∈ SpriteComposer.animPlaces c li found a) :
    p.anim = a.1 := by
  unfold SpriteComposer.animPlaces at hp
  cases h : found.lookup a.1 with
  | none => rw [h] at hp; cases hp
  | some paths =>
      rw [h] at hp
      exact animPlaceList_anim c li a.1 a.2.row paths _ p hp

/-- Helper: a paste in the combined trace comes from some animation of
the list. -/
theorem placesAll_mem (c : Composer) (li : String → Option PILImage)
    (found : List (String × List String)) (l : List (String × AnimConfig))
    (p : Placement) (hp : p ∈ SpriteComposer.placesAll c li found l) :
    ∃ a ∈ l, p ∈ SpriteComposer.animPlaces c li found a := by
  unfold SpriteComposer.placesAll at hp
  rcases List.mem_flatten.mp hp with ⟨sub, hsub, hpsub⟩
  rcases List.mem_map.mp hsub with ⟨a, ha, rfl⟩
  exact ⟨a, ha, hpsub⟩

/-- Helper: animations whose names differ from `name` contribute
nothing to the `name`-filtered trace. -/
theorem filter_placesAll_nil (c : Composer) (li : String → Option PILImage)
    (found : List (String × List String)) (l : List (String × AnimConfig))
    (name : String) (hname : name ∉ l.map Prod.fst) :
    (SpriteComposer.placesAll c li found l).filter (fun p => p.anim == name) = [] := by
  rw [List.filter_eq_nil_iff]
  intro p hp
  rcases placesAll_mem c li found l p hp with ⟨a, ha, hpa⟩
  have hpan := animPlaces_anim c li found a p hpa
  have : a.1 ≠ name := fun h => hname (h ▸ List.mem_map_of_mem Prod.fst ha)
  simp [hpan, this]

/-- Helper: `filterMap` collapses to `map` when the function is total
on the list. -/
theorem filterMap_eq_map_of_mem {α β : Type} (l : List α) (f : α → Option β)
    (g : α → β) (h : ∀ a ∈ l, f a = some (g a)) : l.filterMap f = l.map g := by
  induction l with
  | nil => rfl
  | cons a t ih =>
      rw [List.filterMap_cons, h a (List.mem_cons_self a t), List.map_cons,
        ih fun b hb => h b (List.mem_cons_of_mem a hb)]

/-- Helper: `placesAll` distributes over the dict split. -/
theorem placesAll_split (c : Composer) (li : String → Option PILImage)
    (found : List (String × List String))
    (pre post : List (String × AnimConfig)) (x : String × AnimConfig) :
    SpriteComposer.placesAll c li found (pre ++ x :: post) =
      SpriteComposer.placesAll c li found pre ++
      SpriteComposer.animPlaces c li found x ++
      SpriteComposer.placesAll c li found post := by
  simp [SpriteComposer.placesAll, List.append_assoc]

/-- C3: when an animation's configured `frame_count` is `k` but more
than `k` frames were discovered, the run succeeds, pastes exactly the
first `k` frames of the (ascending-index sorted) discovered list at
cells `(0, row) .. (k-1, row)`, and the surplus frames neither raise
nor count as missing — the animation contributes zero to
`missing_frames`.  The discovered list itself is sorted ascending by
parsed index (`sortPairs`). -/
theorem c3_frame_cap (c : Composer) (fs : FileSystem) (dir out : String)
    (li : String → Option PILImage)
    (found : List (String × List String))
    (hfound : SpriteComposer.find_frames fs dir = .ok found)
    (pre post : List (String × AnimConfig)) (name : String) (row : Int)
    (kN : Nat) (paths : List String) (ff : List (Int × String))
    (hanim : c.animations = pre ++ (name, ⟨row, (kN : Int)⟩) :: post)
    (hname : name ∉ (pre ++ post).map Prod.fst)
    (hpaths : found.lookup name = some paths)
    (hff : paths = (sortPairs ff).map (·.2))
    (hlen : kN < paths.length)
    (hdec : ∀ i < kN, (li (paths.getD i "")).isSome = true)
    (hfw : 0 < c.frame_width) (hfh : 0 < c.frame_height)
    (hcols : 0 < c.cols) (hrowsPos : 0 < c.rows) :
    (SpriteComposer.create_sprite_sheet c fs dir out li none
      none).result.success = true ∧
    (SpriteComposer.create_sprite_sheet c fs dir out li none
      none).placements.filter (fun p => p.anim == name) =
      (List.range kN).map (fun i =>
        ⟨name, i, paths.getD i "", (i : Int) * c.frame_width,
          row * c.frame_height⟩) ∧
    (SpriteComposer.create_sprite_sheet c fs dir out li none
      none).result.missing_frames =
      SpriteComposer.sumMissing li found pre +
      SpriteComposer.sumMissing li found post ∧
    List.Sorted (fun a b : Int × String => a.1 ≤ b.1) (sortPairs ff) := by
  have hneg : (decide (c.frame_width * c.cols < 0) ||
      decide (c.frame_height * c.rows < 0)) = false := by
    simp only [Bool.or_eq_false_iff, decide_eq_false_iff_not, not_lt]
    exact ⟨mul_nonneg hfw.le hcols.le, mul_nonneg hfh.le hrowsPos.le⟩
  have hmin : min ((paths.length : Int)) ((kN : Nat) : Int) = (kN : Int) := by
    omega
  have hminN : (min ((paths.length : Int)) ((kN : Nat) : Int)).toNat = kN := by
    omega
  have hfail : SpriteComposer.animFail li paths kN = 0 := by
    unfold SpriteComposer.animFail
    rw [List.countP_eq_zero]
    intro i hi
    rw [hdec i (List.mem_range.mp hi)]
    decide
  refine ⟨?_, ?_, ?_, sortPairs_sorted ff⟩
  · simp only [SpriteComposer.create_sprite_sheet, hfound, hneg,
      Bool.false_eq_true, if_false]
  · have hplace : (SpriteComposer.create_sprite_sheet c fs dir out li none
        none).placements = SpriteComposer.placesAll c li found c.animations := by
      simp only [SpriteComposer.create_sprite_sheet, hfound, hneg,
        Bool.false_eq_true, if_false, SpriteComposer.runAnimations_spec,
        List.nil_append]
    rw [hplace, hanim, placesAll_split, List.filter_append, List.filter_append]
    rw [filter_placesAll_nil c li found pre name
        (fun h => hname (List.mem_map.mp h |>.elim fun a ⟨ha, he⟩ =>
          List.mem_map.mpr ⟨a, List.mem_append.mpr (.inl ha), he⟩)),
      filter_placesAll_nil c li found post name
        (fun h => hname (List.mem_map.mp h |>.elim fun a ⟨ha, he⟩ =>
          List.mem_map.mpr ⟨a, List.mem_append.mpr (.inr ha), he⟩))]
    rw [List.nil_append, List.append_nil]
    have hours : SpriteComposer.animPlaces c li found (name, ⟨row, (kN : Int)⟩) =
        (List.range kN).map (fun i =>
          (⟨name, i, paths.getD i "", (i : Int) * c.frame_width,
            row * c.frame_height⟩ : Placement)) := by
      unfold SpriteComposer.animPlaces
      rw [hpaths]
      simp only [hminN]
      unfold SpriteComposer.animPlaceList
      refine filterMap_eq_map_of_mem _ _ _ ?_
      intro i hi
      rcases Option.isSome_iff_exists.mp (hdec i (List.mem_range.mp hi)) with
        ⟨img, himg⟩
      rw [himg]
    rw [hours]
    rw [List.filter_eq_self.mpr]
    intro p hp
    rcases List.mem_map.mp hp with ⟨i, _, rfl⟩
    exact beq_self_eq_true name
  · simp only [SpriteComposer.create_sprite_sheet, hfound, hneg,
      Bool.false_eq_true, if_false, SpriteComposer.runAnimations_spec]
    rw [zero_add, hanim, sumMissing_split]
    have hx : SpriteComposer.animMissing li found (name, ⟨row, (kN : Int)⟩) = 0 := by
      unfold SpriteComposer.animMissing
      rw [hpaths]
      simp only [hmin, Int.toNat_natCast, hfail]
      rw [if_neg (lt_irrefl _)]
      simp
    rw [hx, add_zero]

/-- C3 witness: `walk` configured for 2 frames with 3 discovered — the
run succeeds, exactly frames 001 and 002 are pasted at cells (0,0) and
(1,0), and nothing is counted missing. -/
theorem c3_frame_cap_witness :
    (SpriteComposer.create_sprite_sheet walkComposer walkThreeFS "in"
      "out.png" (fun _ => some redImg) none none).result.success = true ∧
    (SpriteComposer.create_sprite_sheet walkComposer walkThreeFS "in"
      "out.png" (fun _ => some redImg) none none).placements.filter
        (fun p => p.anim == "walk") =
      [⟨"walk", 0, "in/walk/001.png", 0, 0⟩,
       ⟨"walk", 1, "in/walk/002.png", 32, 0⟩] ∧
    (SpriteComposer.create_sprite_sheet walkComposer walkThreeFS "in"
      "out.png" (fun _ => some redImg) none none).result.missing_frames = 0 := by
  have h := c3_frame_cap walkComposer walkThreeFS "in" "out.png"
    (fun _ => some redImg)
    [("walk", ["in/walk/001.png", "in/walk/002.png", "in/walk/003.png"])] rfl
    [] [] "walk" 0 2
    ["in/walk/001.png", "in/walk/002.png", "in/walk/003.png"]
    [(1, "in/walk/001.png"), (2, "in/walk/002.png"), (3, "in/walk/003.png")]
    rfl (by decide) (by decide) (by decide) (by decide)
    (fun i _ => rfl) (by decide) (by decide) (by decide) (by decide)
  refine ⟨h.1, h.2.1.trans (by decide), ?_⟩
  have h3 := h.2.2.1
  simpa using h3

/-- C8: on any existing input root, discovery completes without raising
(returning the fold of the directory entries), and every file path in
the resulting FrameSet originates from a stem that parses as an
integer — files with unparsable stems never appear and never fail the
scan. -/
theorem c8_malformed_tolerated (fs : FileSystem) (dir : String)
    (entries : List DirEntry) (hfs : fs dir = some entries) :
    SpriteComposer.find_frames fs dir =
      .ok (entries.foldl (SpriteComposer.entryStep dir) []) ∧
    (∀ p ∈ entries.foldl (SpriteComposer.entryStep dir) [], ∀ q ∈ p.2,
      ∃ e ∈ entries, ∃ stem ∈ e.pngStems, (pythonInt stem).isSome = true ∧
        q = dir ++ "/" ++ e.name ++ "/" ++ stem ++ ".png") := by
  constructor
  · unfold SpriteComposer.find_frames
    rw [hfs]
  · intro p hp q hq
    refine SpriteComposer.foldEntries_prop dir
      (fun p => ∀ q ∈ p.2, ∃ e ∈ entries, ∃ stem ∈ e.pngStems,
        (pythonInt stem).isSome = true ∧
        q = dir ++ "/" ++ e.name ++ "/" ++ stem ++ ".png")
      entries ?_ [] (by simp) p hp q hq
    intro e he _ _ q' hq'
    rcases List.mem_map.mp hq' with ⟨pair, hpair, rfl⟩
    have hpair2 : pair ∈ SpriteComposer.collectPairs dir e :=
      (mem_sortPairs _ _).mp hpair
    unfold SpriteComposer.collectPairs at hpair2
    rcases List.mem_filterMap.mp hpair2 with ⟨stem, hstem, hsome⟩
    cases hpi : pythonInt stem with
    | none => rw [hpi] at hsome; cases hsome
    | some n =>
        rw [hpi] at hsome
        rw [Option.map_some'] at hsome
        cases hsome
        exact ⟨e, he, stem, hstem, by rw [hpi]; rfl, rfl⟩

/-- C8 witness: the root whose `walk` directory holds `001.png`,
`frame_a.png`, `002.png` scans without raising and yields only the two
parsable frames, `frame_a.png` being excluded. -/
theorem c8_malformed_tolerated_witness :
    SpriteComposer.find_frames malformedFS "in" =
      .ok [("walk", ["in/walk/001.png", "in/walk/002.png"])] ∧
    pythonInt "frame_a" = none :=
  ⟨(c8_malformed_tolerated malformedFS "in"
      [⟨"walk", true, ["001", "frame_a", "002"]⟩] rfl).1.trans rfl,
   rfl⟩
